import Mathlib

/-!
Shallow embedding of the budget-vs-actual reporting engine of the
student-expense-tracker backend (the `GET /api/reports` handler in
`src/routes/reports.js`).

Modelling conventions, read against the JavaScript source:

* A JavaScript `Date` restricted to UTC is `JSDate`: calendar fields as the
  accessors return them (`getFullYear`, 0-based `getMonth`, 1-based
  `getDate`) plus the milliseconds past UTC midnight.  `getTime` is derived
  from the fields by standard Gregorian day counting, so timestamp
  comparison and subtraction behave exactly as on `Date` objects.
* Monetary values are exact rationals.  `parseFloat(expense.amount || 0)`
  is modelled by `amount : Option ℚ`: `some q` when the parse yields the
  number `q` (a missing amount yields `some 0` through the `|| 0` default),
  `none` when it yields `NaN`.
* `expense.category || 'other'` and the `!budget.category` guard only look
  at JS truthiness, so a category is `Option String` with `none` standing
  for a missing, null or empty (falsy) string.
* `budget.period` is kept raw as `Option String` (`none` = missing/null,
  `some ""` possible) because `budget.period || 'monthly'` distinguishes
  falsiness, not absence.
* The two query parameters are `Option (Option JSDate)`: the outer `none`
  means the parameter is absent (`!startDate` fires), the inner `none`
  means `new Date(string)` produced an invalid date (`isNaN(getTime())`
  fires).  String-to-date parsing itself is outside the model.
* The two store fetches are passed in as `Except`-valued inputs; a thrown
  fetch error becomes the handler's 500 response (`ReportError.upstream`).
-/

namespace ExpenseReports

/-- A JavaScript `Date` (UTC): `year`/`month`/`day` as `getFullYear()`,
`getMonth()` (0-based) and `getDate()` (1-based) return them, and
`msOfDay` the milliseconds past midnight. -/
structure JSDate where
  year : Nat
  month : Nat
  day : Nat
  msOfDay : Nat
deriving DecidableEq

/-- Days from the civil epoch used by `getTime`, by the standard Gregorian
count (Hinnant's `days_from_civil`, shifted so the count is a `Nat`):
1970-01-01 maps to 719468. -/
def daysFromCivil (dt : JSDate) : Nat :=
  let m := dt.month + 1
  let y := if m ≤ 2 then dt.year - 1 else dt.year
  let era := y / 400
  let yoe := y % 400
  let mp := (m + 9) % 12
  let doy := (153 * mp + 2) / 5 + (dt.day - 1)
  let doe := yoe * 365 + yoe / 4 - yoe / 100 + doy
  era * 146097 + doe

/-- `Date.prototype.getTime`: milliseconds since the Unix epoch. -/
def getTime (dt : JSDate) : ℤ :=
  ((daysFromCivil dt : ℤ) - 719468) * 86400000 + (dt.msOfDay : ℤ)

/-- An expense row as the handler reads it (`amount`, `category`, `date`
attributes), with the parses the handler performs already applied; see the
module docstring for the `Option` conventions. -/
structure ExpenseRecord where
  amount : Option ℚ
  category : Option String
  date : Option JSDate

/-- A budget row as the handler reads it (`amount`, `category`, `period`). -/
structure BudgetRecord where
  amount : Option ℚ
  category : Option String
  period : Option String

/-- One entry of the `budgetComparison` output array. -/
structure BudgetComparison where
  category : String
  budget : ℚ
  actual : ℚ
  difference : ℚ

/-- The `data` object of the handler's JSON response. -/
structure ReportData where
  totalExpenses : ℚ
  expensesByCategory : List (String × ℚ)
  expensesByMonth : List (String × ℚ)
  budgetComparison : List BudgetComparison

/-- The handler's failure responses: the three 400 validation errors and
the 500 produced when a store fetch throws. -/
inductive ReportError
  | invalidInput
  | invalidFormat
  | invalidRange
  | upstream
deriving DecidableEq

/-- `totals[key] = (totals[key] || 0) + v` on a JS object used as a map:
keys keep their insertion order, a new key is appended. -/
def addTo : List (String × ℚ) → String → ℚ → List (String × ℚ)
  | [], k, v => [(k, v)]
  | (k', v') :: t, k, v =>
      if k' = k then (k', v' + v) :: t else (k', v') :: addTo t k v

/-- `totals[key]` on the same map: `some` of the stored running total. -/
def lookupTot : List (String × ℚ) → String → Option ℚ
  | [], _ => none
  | (k', v') :: t, k => if k' = k then some v' else lookupTot t k

/-- The reducer `(sum, e) => { const amount = parseFloat(e.amount || 0);
return isNaN(amount) ? sum : sum + amount; }`. -/
def totalStep (sum : ℚ) (e : ExpenseRecord) : ℚ :=
  match e.amount with
  | none => sum
  | some a => sum + a

/-- `expenses.reduce(totalStep, 0)`: the `totalExpenses` output field. -/
def totalExpenses (es : List ExpenseRecord) : ℚ :=
  es.foldl totalStep 0

/-- One iteration of the category loop: resolve the category with the
`'other'` fallback, skip the record if the amount is `NaN`, otherwise add
into `categoryTotals`. -/
def catStep (acc : List (String × ℚ)) (e : ExpenseRecord) : List (String × ℚ) :=
  match e.amount with
  | none => acc
  | some a => addTo acc (e.category.getD "other") a

/-- `categoryTotals` after the category loop, as the insertion-ordered
key/total pairs that `expensesByCategory` is then built from. -/
def categoryTotals (es : List ExpenseRecord) : List (String × ℚ) :=
  es.foldl catStep []

/-- `n.toString().padStart(2, '0')`. -/
def pad2 (n : Nat) : String :=
  let s := toString n
  if s.length < 2 then "0" ++ s else s

/-- The month bucket `${date.getFullYear()}-${(date.getMonth() + 1)
.toString().padStart(2, '0')}`. -/
def monthKey (d : JSDate) : String :=
  toString d.year ++ "-" ++ pad2 (d.month + 1)

/-- One iteration of the month loop: skip the record when its date is
invalid, then skip when its amount is `NaN`, otherwise add into
`monthTotals` under the record's own month key. -/
def monthStep (acc : List (String × ℚ)) (e : ExpenseRecord) : List (String × ℚ) :=
  match e.date with
  | none => acc
  | some d =>
      match e.amount with
      | none => acc
      | some a => addTo acc (monthKey d) a

/-- `monthTotals` after the month loop, as the insertion-ordered pairs that
`expensesByMonth` is then built from. -/
def monthTotals (es : List ExpenseRecord) : List (String × ℚ) :=
  es.foldl monthStep []

/-- `Math.ceil` of an exact rational: the least integer bound. -/
def ceilQ (q : ℚ) : ℤ :=
  ⌈q⌉

/-- The month count of the monthly branch: both dates are set to the 1st of
their month (which leaves `getFullYear`/`getMonth` unchanged), then
`(endY - startY) * 12 + (endMonth - startMonth) + 1`. -/
def monthSpan (s e : JSDate) : ℤ :=
  ((e.year : ℤ) - (s.year : ℤ)) * 12 + ((e.month : ℤ) - (s.month : ℤ)) + 1

/-- The period dispatch of the comparison loop, producing
`adjustedBudgetAmount` from the parsed budget amount and the report's
range: monthly scales by `max 1 (monthSpan)`, weekly by the ceiling week
count of the raw timestamp difference, quarterly by `max 1 (ceil
(monthSpan / 3))`, yearly by the anniversary count, and any other period
string leaves the amount unchanged. -/
def normalizeBudget (period : String) (amount : ℚ) (s e : JSDate) : ℚ :=
  if period = "monthly" then
    let months : ℤ := max 1 (monthSpan s e)
    amount * (months : ℚ)
  else if period = "weekly" then
    let diffTime : ℤ := max 0 (getTime e - getTime s)
    let days : ℤ := ceilQ ((diffTime : ℚ) / 86400000)
    let weeks : ℤ := max 1 (ceilQ ((days : ℚ) / 7))
    amount * (weeks : ℚ)
  else if period = "quarterly" then
    let quarters : ℤ := max 1 (ceilQ ((monthSpan s e : ℚ) / 3))
    amount * (quarters : ℚ)
  else if period = "yearly" then
    let extra : ℤ :=
      if s.month < e.month ∨ (e.month = s.month ∧ s.day ≤ e.day) then 1 else 0
    let years : ℤ := max 1 (((e.year : ℤ) - (s.year : ℤ)) + extra)
    amount * (years : ℚ)
  else amount

/-- `budget.period || 'monthly'`: the default fires on a missing, null or
empty (falsy) period. -/
def effPeriod (p : Option String) : String :=
  match p with
  | none => "monthly"
  | some s => if s = "" then "monthly" else s

/-- One iteration of the comparison loop: skip a budget without a (truthy)
category, parse the amount defaulting to 0 on `NaN`, read the actual spend
from `categoryTotals` with `|| 0`, normalize by period, and push the
comparison entry. -/
def comparisonStep (cats : List (String × ℚ)) (s e : JSDate)
    (acc : List BudgetComparison) (b : BudgetRecord) : List BudgetComparison :=
  match b.category with
  | none => acc
  | some category =>
      let budgetAmount : ℚ :=
        match b.amount with
        | none => 0
        | some q => q
      let actualAmount : ℚ :=
        match lookupTot cats category with
        | none => 0
        | some q => q
      let adjusted := normalizeBudget (effPeriod b.period) budgetAmount s e
      acc ++ [⟨category, adjusted, actualAmount, adjusted - actualAmount⟩]

/-- The `budgetComparison` array after the comparison loop. -/
def budgetComparison (bs : List BudgetRecord) (cats : List (String × ℚ))
    (s e : JSDate) : List BudgetComparison :=
  bs.foldl (comparisonStep cats s e) []

/-- The three validation gates at the top of the handler, in source order:
missing parameter → 400 "Please provide startDate and endDate"; invalid
parse → 400 "Invalid date format"; `end < start` (timestamp comparison) →
400 "End date cannot be before start date". -/
def validateRange (startP endP : Option (Option JSDate)) :
    Except ReportError (JSDate × JSDate) :=
  match startP, endP with
  | none, _ => .error .invalidInput
  | _, none => .error .invalidInput
  | some ps, some pe =>
      match ps, pe with
      | none, _ => .error .invalidFormat
      | _, none => .error .invalidFormat
      | some s, some e =>
          if getTime e < getTime s then .error .invalidRange else .ok (s, e)

/-- The whole handler: validate, fetch expenses over `[start, end]`, fetch
budgets, aggregate, compare, and answer.  The two fetches are inputs; a
fetch that throws surfaces as the catch-all 500 (`upstream`). -/
def getReport (startP endP : Option (Option JSDate))
    (fetchExpenses : JSDate → JSDate → Except Unit (List ExpenseRecord))
    (fetchBudgets : Except Unit (List BudgetRecord)) :
    Except ReportError ReportData :=
  match validateRange startP endP with
  | .error k => .error k
  | .ok (s, e) =>
      match fetchExpenses s e with
      | .error _ => .error .upstream
      | .ok expenses =>
          match fetchBudgets with
          | .error _ => .error .upstream
          | .ok budgets =>
              .ok
                { totalExpenses := totalExpenses expenses
                  expensesByCategory := categoryTotals expenses
                  expensesByMonth := monthTotals expenses
                  budgetComparison :=
                    budgetComparison budgets (categoryTotals expenses) s e }

/-! ## Statement helpers and concrete scenario inputs -/

/-- Sum of the `amount` fields of an output list (`expensesByCategory` /
`expensesByMonth` entries are key/amount pairs). -/
def sumSnd (l : List (String × ℚ)) : ℚ :=
  (l.map Prod.snd).sum

/-- 2024-01-01 (midnight UTC). -/
def jan1 : JSDate := ⟨2024, 0, 1, 0⟩

/-- 2024-01-05. -/
def jan5 : JSDate := ⟨2024, 0, 5, 0⟩

/-- 2024-01-20. -/
def jan20 : JSDate := ⟨2024, 0, 20, 0⟩

/-- 2024-02-10. -/
def feb10 : JSDate := ⟨2024, 1, 10, 0⟩

/-- 2024-02-29. -/
def feb29 : JSDate := ⟨2024, 1, 29, 0⟩

/-- The spec scenario's three expenses: 50 Food on 2024-01-05, 30 Food on
2024-02-10, 20 Transport on 2024-01-20. -/
def esC1 : List ExpenseRecord :=
  [⟨some 50, some "Food", some jan5⟩,
   ⟨some 30, some "Food", some feb10⟩,
   ⟨some 20, some "Transport", some jan20⟩]

/-- The spec scenario's single budget: 100 Food, monthly. -/
def bsC1 : List BudgetRecord :=
  [⟨some 100, some "Food", some "monthly"⟩]

/-- 2024-01-08 at midnight UTC. -/
def jan8 : JSDate := ⟨2024, 0, 8, 0⟩

/-- 2024-01-08 at 12:00 UTC: same calendar date as `jan8`, different
time-of-day. -/
def jan8noon : JSDate := ⟨2024, 0, 8, 43200000⟩

/-- A weekly budget of 10 in category "X". -/
def wkBudget : BudgetRecord := ⟨some 10, some "X", some "weekly"⟩

/-- The comparison entry as the spec words it (claim C4): one entry per
budget that has a category; amount parsed with default 0; `budget` is the
period-normalized amount over the report's range; `actual` the category
total or 0; `difference = budget − actual`. -/
def comparisonSpec (cats : List (String × ℚ)) (s e : JSDate)
    (b : BudgetRecord) : Option BudgetComparison :=
  b.category.map (fun c =>
    let adjusted := normalizeBudget (effPeriod b.period) (b.amount.getD 0) s e
    let actual := (lookupTot cats c).getD 0
    ⟨c, adjusted, actual, adjusted - actual⟩)

/-! ## Aggregation lemmas -/

theorem sumSnd_cons (p : String × ℚ) (t : List (String × ℚ)) :
    sumSnd (p :: t) = p.2 + sumSnd t := by
  simp [sumSnd]

theorem sumSnd_addTo (l : List (String × ℚ)) (k : String) (v : ℚ) :
    sumSnd (addTo l k v) = sumSnd l + v := by
  induction l with
  | nil => simp [addTo, sumSnd]
  | cons hd t ih =>
      obtain ⟨k', v'⟩ := hd
      by_cases h : k' = k
      · simp only [addTo, if_pos h, sumSnd_cons]
        ring
      · simp only [addTo, if_neg h, sumSnd_cons, ih]
        ring

theorem totalStep_eq (c : ℚ) (e : ExpenseRecord) :
    totalStep c e = c + e.amount.getD 0 := by
  cases h : e.amount <;> simp [totalStep, h]

theorem totalExpenses_eq_sum (es : List ExpenseRecord) :
    totalExpenses es = (es.map (fun e => e.amount.getD 0)).sum := by
  suffices h : ∀ c : ℚ, es.foldl totalStep c = c + (es.map (fun e => e.amount.getD 0)).sum by
    simpa [totalExpenses] using h 0
  induction es with
  | nil => intro c; simp
  | cons e t ih =>
      intro c
      simp only [List.foldl_cons, List.map_cons, List.sum_cons, ih, totalStep_eq]
      ring

theorem totalExpenses_cons (e : ExpenseRecord) (es : List ExpenseRecord) :
    totalExpenses (e :: es) = e.amount.getD 0 + totalExpenses es := by
  simp [totalExpenses_eq_sum]

theorem cat_foldl_sum (es : List ExpenseRecord) :
    ∀ acc : List (String × ℚ),
      sumSnd (List.foldl catStep acc es) = sumSnd acc + totalExpenses es := by
  induction es with
  | nil => intro acc; simp [totalExpenses]
  | cons e t ih =>
      intro acc
      simp only [List.foldl_cons, ih, totalExpenses_cons]
      cases h : e.amount with
      | none => simp [catStep, h]
      | some a => simp only [catStep, h, sumSnd_addTo, Option.getD_some]; ring

theorem month_foldl_sum (es : List ExpenseRecord)
    (hdef : ∀ ex ∈ es, ex.amount.isSome ∧ ex.date.isSome) :
    ∀ acc : List (String × ℚ),
      sumSnd (List.foldl monthStep acc es) = sumSnd acc + totalExpenses es := by
  induction es with
  | nil => intro acc; simp [totalExpenses]
  | cons e t ih =>
      intro acc
      obtain ⟨ha, hd⟩ := hdef e (by simp)
      obtain ⟨a, ha⟩ := Option.isSome_iff_exists.mp ha
      obtain ⟨d, hd⟩ := Option.isSome_iff_exists.mp hd
      have ih2 := ih (fun ex hx => hdef ex (by simp [hx]))
      simp only [List.foldl_cons, ih2, totalExpenses_cons, monthStep, ha, hd,
        sumSnd_addTo, Option.getD_some]
      ring

theorem addTo_keys (l : List (String × ℚ)) (k : String) (v : ℚ) :
    (addTo l k v).map Prod.fst =
      if k ∈ l.map Prod.fst then l.map Prod.fst
      else l.map Prod.fst ++ [k] := by
  induction l with
  | nil => simp [addTo]
  | cons hd t ih =>
      obtain ⟨k', v'⟩ := hd
      by_cases h : k' = k
      · subst h
        simp [addTo]
      · have h2 : ¬ k = k' := fun hx => h hx.symm
        simp only [addTo, if_neg h, List.map_cons, ih, List.mem_cons, h2,
          false_or]
        by_cases h3 : k ∈ t.map Prod.fst
        · simp [h3]
        · simp [h3]

theorem addTo_mem (l : List (String × ℚ)) (k : String) (v : ℚ) (c : String) :
    c ∈ (addTo l k v).map Prod.fst ↔ c ∈ l.map Prod.fst ∨ c = k := by
  rw [addTo_keys]
  split_ifs with h
  · constructor
    · exact Or.inl
    · rintro (hc | hc)
      · exact hc
      · exact hc ▸ h
  · simp [List.mem_append]

theorem addTo_keys_nodup (l : List (String × ℚ)) (k : String) (v : ℚ)
    (h : (l.map Prod.fst).Nodup) : ((addTo l k v).map Prod.fst).Nodup := by
  rw [addTo_keys]
  split_ifs with hk
  · exact h
  · simp [List.nodup_append, h, hk]

theorem cat_foldl_mem (es : List ExpenseRecord) :
    ∀ (acc : List (String × ℚ)) (c : String),
      c ∈ (List.foldl catStep acc es).map Prod.fst ↔
        c ∈ acc.map Prod.fst ∨
          ∃ e ∈ es, e.amount.isSome ∧ e.category.getD "other" = c := by
  induction es with
  | nil => intro acc c; simp
  | cons e t ih =>
      intro acc c
      simp only [List.foldl_cons, ih, List.mem_cons]
      cases h : e.amount with
      | none =>
          simp only [catStep, h]
          constructor
          · rintro (hc | hc)
            · exact Or.inl hc
            · exact Or.inr (by
                obtain ⟨x, hx, hxx⟩ := hc
                exact ⟨x, Or.inr hx, hxx⟩)
          · rintro (hc | ⟨x, hx | hx, hxx⟩)
            · exact Or.inl hc
            · subst hx
              simp [h] at hxx
            · exact Or.inr ⟨x, hx, hxx⟩
      | some a =>
          simp only [catStep, h, addTo_mem]
          constructor
          · rintro ((hc | hc) | hc)
            · exact Or.inl hc
            · exact Or.inr ⟨e, Or.inl rfl, by simp [h, hc.symm]⟩
            · obtain ⟨x, hx, hxx⟩ := hc
              exact Or.inr ⟨x, Or.inr hx, hxx⟩
          · rintro (hc | ⟨x, hx | hx, hxx⟩)
            · exact Or.inl (Or.inl hc)
            · subst hx
              exact Or.inl (Or.inr hxx.2.symm)
            · exact Or.inr ⟨x, hx, hxx⟩

theorem cat_foldl_nodup (es : List ExpenseRecord) :
    ∀ acc : List (String × ℚ), (acc.map Prod.fst).Nodup →
      ((List.foldl catStep acc es).map Prod.fst).Nodup := by
  induction es with
  | nil => intro acc h; simpa using h
  | cons e t ih =>
      intro acc h
      simp only [List.foldl_cons]
      cases ha : e.amount with
      | none =>
          have he : catStep acc e = acc := by simp [catStep, ha]
          rw [he]
          exact ih acc h
      | some a =>
          have he : catStep acc e = addTo acc (e.category.getD "other") a := by
            simp [catStep, ha]
          rw [he]
          exact ih _ (addTo_keys_nodup acc _ a h)

/-! ## Comparison-builder refinement -/

theorem comparison_foldl (cats : List (String × ℚ)) (s e : JSDate) :
    ∀ (bs : List BudgetRecord) (acc : List BudgetComparison),
      List.foldl (comparisonStep cats s e) acc bs =
        acc ++ bs.filterMap (comparisonSpec cats s e) := by
  intro bs
  induction bs with
  | nil => intro acc; simp
  | cons b t ih =>
      intro acc
      simp only [List.foldl_cons, ih]
      cases hc : b.category with
      | none => simp [comparisonStep, comparisonSpec, hc]
      | some c =>
          have hstep : comparisonStep cats s e acc b =
              acc ++ [⟨c, normalizeBudget (effPeriod b.period) (b.amount.getD 0) s e,
                       (lookupTot cats c).getD 0,
                       normalizeBudget (effPeriod b.period) (b.amount.getD 0) s e -
                         (lookupTot cats c).getD 0⟩] := by
            simp only [comparisonStep, hc]
            cases b.amount <;> cases lookupTot cats c <;> rfl
          rw [hstep]
          simp [comparisonSpec, hc]

theorem comparisonSpec_length (cats : List (String × ℚ)) (s e : JSDate) :
    ∀ bs : List BudgetRecord,
      (bs.filterMap (comparisonSpec cats s e)).length =
        (bs.filter (fun b => b.category.isSome)).length := by
  intro bs
  induction bs with
  | nil => rfl
  | cons b t ih =>
      cases hc : b.category with
      | none => simpa [comparisonSpec, hc] using ih
      | some c => simpa [comparisonSpec, hc] using ih

/-- Helper to evaluate `Math.ceil` at concrete rationals. -/
theorem ceilQ_eq_of (q : ℚ) (z : ℤ) (h1 : (z : ℚ) - 1 < q) (h2 : q ≤ (z : ℚ)) :
    ceilQ q = z := by
  rw [ceilQ, Int.ceil_eq_iff]
  exact ⟨h1, h2⟩

/-! ## Claim theorems -/

/-- C5: for every expense set without record defects (every amount and
every date parses), the amounts of `expensesByCategory` sum to
`totalExpenses`, and so do the amounts of `expensesByMonth`. -/
theorem aggregate_sums_equal_total (es : List ExpenseRecord)
    (hdef : ∀ ex ∈ es, ex.amount.isSome ∧ ex.date.isSome) :
    sumSnd (categoryTotals es) = totalExpenses es ∧
    sumSnd (monthTotals es) = totalExpenses es := by
  constructor
  · have h := cat_foldl_sum es []
    simpa [categoryTotals, sumSnd] using h
  · have h := month_foldl_sum es hdef []
    simpa [monthTotals, sumSnd] using h

theorem aggregate_sums_equal_total_witness :
    sumSnd (categoryTotals esC1) = totalExpenses esC1 ∧
    sumSnd (monthTotals esC1) = totalExpenses esC1 :=
  aggregate_sums_equal_total esC1 (by decide)

/-- C7 counterexample: a single expense of amount 0 in category "X"
produces the entry `("X", 0)` — an `expensesByCategory` entry whose total
is zero, which the claim says can never appear. -/
theorem zero_total_category_entry_cex :
    categoryTotals [⟨some 0, some "X", some jan5⟩] = [("X", 0)] := by
  norm_num [categoryTotals, catStep, addTo]

/-- C7 amended: `expensesByCategory` has pairwise distinct categories, and
a category appears exactly when some record with a parseable amount maps
to it (under the `'other'` fallback) — regardless of whether its total is
zero. -/
theorem category_entry_characterization (es : List ExpenseRecord) :
    ((categoryTotals es).map Prod.fst).Nodup ∧
    ∀ c : String,
      c ∈ (categoryTotals es).map Prod.fst ↔
        ∃ e ∈ es, e.amount.isSome ∧ e.category.getD "other" = c := by
  constructor
  · exact cat_foldl_nodup es [] (by simp)
  · intro c
    have h := cat_foldl_mem es [] c
    simpa [categoryTotals] using h

/-- C4: the comparison builder emits exactly one entry per budget record
that has a (truthy) category — skipped budgets do not fail the report,
budgets sharing a category are not merged — and each entry carries the
period-normalized amount (amount parse defaulting to 0), the category's
aggregated actual (defaulting to 0), and their difference. -/
theorem budget_comparison_per_budget (bs : List BudgetRecord)
    (cats : List (String × ℚ)) (s e : JSDate) :
    budgetComparison bs cats s e = bs.filterMap (comparisonSpec cats s e) ∧
    (budgetComparison bs cats s e).length =
      (bs.filter (fun b => b.category.isSome)).length := by
  have h1 : budgetComparison bs cats s e = bs.filterMap (comparisonSpec cats s e) := by
    have h := comparison_foldl cats s e bs []
    simpa [budgetComparison] using h
  exact ⟨h1, by rw [h1, comparisonSpec_length]⟩

/-- C2: monthly normalization multiplies the amount by
`max 1 ((endYear*12 + endMonth) − (startYear*12 + startMonth) + 1)`
(truncating to the 1st of the month changes neither year nor month); a
range inside one calendar month yields the raw amount, and a range
spanning N months with equal day-of-month yields `amount × N`. -/
theorem monthly_normalization_formula (a : ℚ) (s e : JSDate)
    (h : getTime s ≤ getTime e) :
    normalizeBudget "monthly" a s e =
      a * ((max 1 ((((e.year : ℤ) * 12 + (e.month : ℤ)) -
        ((s.year : ℤ) * 12 + (s.month : ℤ))) + 1) : ℤ) : ℚ) ∧
    (s.year = e.year → s.month = e.month → normalizeBudget "monthly" a s e = a) ∧
    (∀ N : ℕ, 0 < N →
      ((e.year : ℤ) * 12 + (e.month : ℤ)) - ((s.year : ℤ) * 12 + (s.month : ℤ)) =
        (N : ℤ) - 1 →
      s.day = e.day → normalizeBudget "monthly" a s e = a * (N : ℚ)) := by
  have hm : normalizeBudget "monthly" a s e =
      a * ((max 1 (monthSpan s e) : ℤ) : ℚ) := by
    simp [normalizeBudget]
  refine ⟨?_, ?_, ?_⟩
  · rw [hm]
    have hs : monthSpan s e =
        (((e.year : ℤ) * 12 + (e.month : ℤ)) -
          ((s.year : ℤ) * 12 + (s.month : ℤ))) + 1 := by
      rw [monthSpan]; ring
    rw [hs]
  · intro h1 h2
    rw [hm]
    have hs : monthSpan s e = 1 := by
      rw [monthSpan, h1, h2]; ring
    rw [hs]
    norm_num
  · intro N hN hdiff hday
    rw [hm]
    have hs : monthSpan s e = (N : ℤ) := by
      rw [monthSpan]; omega
    have hmax : max 1 (N : ℤ) = (N : ℤ) := by omega
    rw [hs, hmax]
    push_cast
    ring

theorem monthly_normalization_formula_witness :
    (normalizeBudget "monthly" 100 jan1 feb29 =
      100 * ((max 1 ((((feb29.year : ℤ) * 12 + (feb29.month : ℤ)) -
        ((jan1.year : ℤ) * 12 + (jan1.month : ℤ))) + 1) : ℤ) : ℚ) ∧
    (jan1.year = feb29.year → jan1.month = feb29.month →
      normalizeBudget "monthly" 100 jan1 feb29 = 100) ∧
    (∀ N : ℕ, 0 < N →
      ((feb29.year : ℤ) * 12 + (feb29.month : ℤ)) -
        ((jan1.year : ℤ) * 12 + (jan1.month : ℤ)) = (N : ℤ) - 1 →
      jan1.day = feb29.day → normalizeBudget "monthly" 100 jan1 feb29 = 100 * (N : ℚ))) :=
  monthly_normalization_formula 100 jan1 feb29 (by decide)

/-- C10: a budget whose period is missing/null (`none`) or the empty
string takes the monthly branch: its amount is scaled by the month count
of the window, not left unscaled. -/
theorem falsy_period_defaults_monthly (am : ℚ) (c : String) (p : Option String)
    (cats : List (String × ℚ)) (s e : JSDate)
    (hp : p = none ∨ p = some "") :
    budgetComparison [⟨some am, some c, p⟩] cats s e =
      [⟨c, am * ((max 1 (monthSpan s e) : ℤ) : ℚ),
        (lookupTot cats c).getD 0,
        am * ((max 1 (monthSpan s e) : ℤ) : ℚ) - (lookupTot cats c).getD 0⟩] := by
  have hp2 : effPeriod p = "monthly" := by
    rcases hp with h | h <;> simp [h, effPeriod]
  simp only [budgetComparison, List.foldl_cons, List.foldl_nil, comparisonStep,
    hp2, normalizeBudget, if_pos rfl]
  cases lookupTot cats c <;> simp [Option.getD]

theorem falsy_period_defaults_monthly_witness :
    budgetComparison [⟨some 50, some "X", none⟩] [] jan1 feb29 =
      [⟨"X", 50 * ((max 1 (monthSpan jan1 feb29) : ℤ) : ℚ),
        (lookupTot [] "X").getD 0,
        50 * ((max 1 (monthSpan jan1 feb29) : ℤ) : ℚ) - (lookupTot [] "X").getD 0⟩] :=
  falsy_period_defaults_monthly 50 "X" none [] jan1 feb29 (Or.inl rfl)

/-- C9 counterexample: the empty string is a present period string outside
{weekly, monthly, quarterly, yearly}, yet over 2024-01-01..2024-02-29 a
50-amount budget with period `""` is scaled to 100 (the monthly branch),
not left at 50 as the claim requires. -/
theorem empty_period_scaled_cex :
    (some "" : Option String) ≠ none ∧
    "" ∉ (["weekly", "monthly", "quarterly", "yearly"] : List String) ∧
    normalizeBudget (effPeriod (some "")) 50 jan1 feb29 = 100 ∧
    (100 : ℚ) ≠ 50 := by
  refine ⟨by simp, by decide, ?_, by norm_num⟩
  have he : effPeriod (some "") = "monthly" := rfl
  have hs : monthSpan jan1 feb29 = 2 := by decide
  have hmax : max 1 (monthSpan jan1 feb29) = 2 := by rw [hs]; decide
  rw [he]
  simp only [normalizeBudget, if_pos rfl, hmax]
  norm_num

/-- C9 amended: a budget whose period string is present, non-empty and not
one of weekly/monthly/quarterly/yearly keeps its raw amount (no scaling),
and the comparison entry is still emitted (the report succeeds). -/
theorem unrecognized_period_unscaled (a : ℚ) (s e : JSDate) (p : String)
    (h0 : p ≠ "") (h1 : p ≠ "weekly") (h2 : p ≠ "monthly")
    (h3 : p ≠ "quarterly") (h4 : p ≠ "yearly") :
    normalizeBudget (effPeriod (some p)) a s e = a ∧
    ∀ (c : String) (cats : List (String × ℚ)),
      budgetComparison [⟨some a, some c, some p⟩] cats s e =
        [⟨c, a, (lookupTot cats c).getD 0, a - (lookupTot cats c).getD 0⟩] := by
  have he : effPeriod (some p) = p := by simp [effPeriod, h0]
  have hn : normalizeBudget p a s e = a := by
    simp [normalizeBudget, h1, h2, h3, h4]
  refine ⟨by rw [he, hn], ?_⟩
  intro c cats
  simp only [budgetComparison, List.foldl_cons, List.foldl_nil, comparisonStep,
    he, hn]
  cases lookupTot cats c <;> simp [Option.getD]

theorem unrecognized_period_unscaled_witness :
    normalizeBudget (effPeriod (some "biannual")) 50 jan1 feb29 = 50 ∧
    ∀ (c : String) (cats : List (String × ℚ)),
      budgetComparison [⟨some 50, some c, some "biannual"⟩] cats jan1 feb29 =
        [⟨c, 50, (lookupTot cats c).getD 0, 50 - (lookupTot cats c).getD 0⟩] :=
  unrecognized_period_unscaled 50 jan1 feb29 "biannual"
    (by decide) (by decide) (by decide) (by decide) (by decide)

/-- C6 counterexample: an expense with a parseable amount (10) but an
unparseable date is NOT skipped everywhere — it still contributes to
`totalExpenses` and `expensesByCategory` (only `expensesByMonth` skips
it), contradicting the claim that it contributes to none of the three. -/
theorem defective_date_still_counted_cex :
    totalExpenses [⟨some 10, some "A", none⟩] = 10 ∧
    categoryTotals [⟨some 10, some "A", none⟩] = [("A", 10)] ∧
    monthTotals [⟨some 10, some "A", none⟩] = [] := by
  refine ⟨?_, ?_, rfl⟩
  · norm_num [totalExpenses, totalStep]
  · norm_num [categoryTotals, catStep, addTo]

/-- C6 amended: a record whose amount does not parse contributes to none
of the three aggregates; a record whose date does not parse is skipped
only by `expensesByMonth` and still contributes its parsed amount to
`totalExpenses` and to the `expensesByCategory` sums.  Both skips are per
record (the aggregation is total — no error is raised). -/
theorem record_defect_isolation (es1 es2 : List ExpenseRecord)
    (e : ExpenseRecord) :
    (e.amount = none →
      totalExpenses (es1 ++ e :: es2) = totalExpenses (es1 ++ es2) ∧
      categoryTotals (es1 ++ e :: es2) = categoryTotals (es1 ++ es2) ∧
      monthTotals (es1 ++ e :: es2) = monthTotals (es1 ++ es2)) ∧
    (∀ a : ℚ, e.amount = some a → e.date = none →
      monthTotals (es1 ++ e :: es2) = monthTotals (es1 ++ es2) ∧
      totalExpenses (es1 ++ e :: es2) = totalExpenses (es1 ++ es2) + a ∧
      sumSnd (categoryTotals (es1 ++ e :: es2)) =
        sumSnd (categoryTotals (es1 ++ es2)) + a) := by
  constructor
  · intro ha
    refine ⟨?_, ?_, ?_⟩
    · simp [totalExpenses_eq_sum, ha]
    · have hstep : ∀ acc, catStep acc e = acc := fun acc => by
        simp [catStep, ha]
      simp [categoryTotals, List.foldl_append, hstep]
    · have hstep : ∀ acc, monthStep acc e = acc := fun acc => by
        cases hd : e.date <;> simp [monthStep, hd, ha]
      simp [monthTotals, List.foldl_append, hstep]
  · intro a ha hd
    have hstep : ∀ acc, monthStep acc e = acc := fun acc => by
      simp [monthStep, hd]
    have htot : totalExpenses (es1 ++ e :: es2) = totalExpenses (es1 ++ es2) + a := by
      simp [totalExpenses_eq_sum, ha]
      ring
    have hcat : ∀ l, sumSnd (categoryTotals l) = totalExpenses l := fun l => by
      have h := cat_foldl_sum l []
      simpa [categoryTotals, sumSnd] using h
    refine ⟨?_, htot, ?_⟩
    · simp [monthTotals, List.foldl_append, hstep]
    · rw [hcat, hcat, htot]

/-- C1: the spec scenario end to end — range 2024-01-01..2024-02-29,
the three expenses and the monthly Food budget of 100 produce
`totalExpenses = 100`, `expensesByCategory = [(Food, 80), (Transport, 20)]`,
`expensesByMonth = [(2024-01, 70), (2024-02, 30)]`, and
`budgetComparison = [(Food, budget 200, actual 80, difference 120)]`. -/
theorem report_scenario_matches :
    getReport (some (some jan1)) (some (some feb29))
        (fun _ _ => Except.ok esC1) (Except.ok bsC1) =
      Except.ok ⟨100, [("Food", 80), ("Transport", 20)],
        [("2024-01", 70), ("2024-02", 30)],
        [⟨"Food", 200, 80, 120⟩]⟩ := by
  have hlt : ¬ (getTime feb29 < getTime jan1) := by decide
  have h1 : totalExpenses esC1 = 100 := by
    norm_num [totalExpenses, totalStep, esC1]
  have h2 : categoryTotals esC1 = [("Food", 80), ("Transport", 20)] := by
    norm_num [categoryTotals, catStep, addTo, esC1] <;> decide
  have h3 : monthTotals esC1 = [("2024-01", 70), ("2024-02", 30)] := by
    norm_num [monthTotals, monthStep, addTo, monthKey, pad2, esC1,
      jan5, jan20, feb10] <;> decide
  have h4 : budgetComparison bsC1 [("Food", 80), ("Transport", 20)] jan1 feb29 =
      [⟨"Food", 200, 80, 120⟩] := by
    norm_num [budgetComparison, comparisonStep, lookupTot, effPeriod,
      normalizeBudget, monthSpan, jan1, feb29, bsC1] <;> decide
  simp only [getReport, validateRange, if_neg hlt]
  rw [h1, h2, h3, h4]

/-- C3: the validator fails `invalidInput` exactly on a missing parameter,
`invalidFormat` exactly when both are present and one does not parse,
`invalidRange` exactly when both parse and end < start (in that order);
any validation failure is the whole response, independent of the record
store (no fetch influences the outcome, no partial data). -/
theorem validation_failure_classification (sp ep : Option (Option JSDate))
    (fe fe2 : JSDate → JSDate → Except Unit (List ExpenseRecord))
    (fb fb2 : Except Unit (List BudgetRecord)) :
    (validateRange sp ep = .error .invalidInput ↔ sp = none ∨ ep = none) ∧
    (validateRange sp ep = .error .invalidFormat ↔
      sp ≠ none ∧ ep ≠ none ∧ (sp = some none ∨ ep = some none)) ∧
    (validateRange sp ep = .error .invalidRange ↔
      ∃ s e, sp = some (some s) ∧ ep = some (some e) ∧ getTime e < getTime s) ∧
    (∀ k, validateRange sp ep = .error k →
      getReport sp ep fe fb = .error k ∧
      getReport sp ep fe fb = getReport sp ep fe2 fb2) := by
  rcases sp with _ | (_ | s)
  · simp [validateRange, getReport]
  · rcases ep with _ | (_ | e) <;> simp [validateRange, getReport]
  · rcases ep with _ | (_ | e)
    · simp [validateRange, getReport]
    · simp [validateRange, getReport]
    · by_cases hlt : getTime e < getTime s
      · simp [validateRange, getReport, hlt]
      · simp [validateRange, getReport, hlt]

/-- The weekly branch of the period dispatch, written out. -/
theorem normalizeBudget_weekly (a : ℚ) (s e : JSDate) :
    normalizeBudget "weekly" a s e =
      a * ((max 1 (ceilQ (((ceilQ (((max 0 (getTime e - getTime s) : ℤ) : ℚ) /
        86400000) : ℤ) : ℚ) / 7)) : ℤ) : ℚ) := by
  unfold normalizeBudget
  rw [if_neg (show ¬ ("weekly" : String) = "monthly" by decide), if_pos rfl]

/-- C8 counterexample: 2024-01-08 noon and 2024-01-08 midnight are the
same calendar date, yet the validator hands the noon instant through
unchanged (no truncation) and the weekly day count built from raw
timestamps turns a weekly budget of 10 into 20 instead of 10 — time of
day does affect the report. -/
theorem time_of_day_affects_report_cex :
    jan8noon.year = jan8.year ∧ jan8noon.month = jan8.month ∧
    jan8noon.day = jan8.day ∧ jan8noon.msOfDay ≠ 0 ∧
    validateRange (some (some jan1)) (some (some jan8noon)) =
      .ok (jan1, jan8noon) ∧
    getReport (some (some jan1)) (some (some jan8))
        (fun _ _ => .ok []) (.ok [wkBudget]) =
      .ok ⟨0, [], [], [⟨"X", 10, 0, 10⟩]⟩ ∧
    getReport (some (some jan1)) (some (some jan8noon))
        (fun _ _ => .ok []) (.ok [wkBudget]) =
      .ok ⟨0, [], [], [⟨"X", 20, 0, 20⟩]⟩ := by
  have hlt1 : ¬ (getTime jan8 < getTime jan1) := by decide
  have hlt2 : ¬ (getTime jan8noon < getTime jan1) := by decide
  have hd1 : (max 0 (getTime jan8 - getTime jan1) : ℤ) = 604800000 := by decide
  have hd2 : (max 0 (getTime jan8noon - getTime jan1) : ℤ) = 648000000 := by decide
  have hc1 : ceilQ (((604800000 : ℤ) : ℚ) / 86400000) = 7 :=
    ceilQ_eq_of _ 7 (by norm_num) (by norm_num)
  have hc2 : ceilQ (((7 : ℤ) : ℚ) / 7) = 1 :=
    ceilQ_eq_of _ 1 (by norm_num) (by norm_num)
  have hc3 : ceilQ (((648000000 : ℤ) : ℚ) / 86400000) = 8 :=
    ceilQ_eq_of _ 8 (by norm_num) (by norm_num)
  have hc4 : ceilQ (((8 : ℤ) : ℚ) / 7) = 2 :=
    ceilQ_eq_of _ 2 (by norm_num) (by norm_num)
  have n1 : normalizeBudget "weekly" 10 jan1 jan8 = 10 := by
    rw [normalizeBudget_weekly, hd1, hc1, hc2]
    norm_num
  have n2 : normalizeBudget "weekly" 10 jan1 jan8noon = 20 := by
    rw [normalizeBudget_weekly, hd2, hc3, hc4]
    norm_num
  have hep : effPeriod (some "weekly") = "weekly" := by decide
  have hb1 : budgetComparison [wkBudget] [] jan1 jan8 = [⟨"X", 10, 0, 10⟩] := by
    simp only [budgetComparison, List.foldl_cons, List.foldl_nil,
      comparisonStep, wkBudget, hep, lookupTot, n1]
    norm_num
  have hb2 : budgetComparison [wkBudget] [] jan1 jan8noon =
      [⟨"X", 20, 0, 20⟩] := by
    simp only [budgetComparison, List.foldl_cons, List.foldl_nil,
      comparisonStep, wkBudget, hep, lookupTot, n2]
    norm_num
  refine ⟨rfl, rfl, rfl, by decide, by simp [validateRange, hlt2], ?_, ?_⟩
  · simp only [getReport, validateRange, if_neg hlt1, totalExpenses,
      categoryTotals, monthTotals, List.foldl_nil]
    rw [hb1]
  · simp only [getReport, validateRange, if_neg hlt2, totalExpenses,
      categoryTotals, monthTotals, List.foldl_nil]
    rw [hb2]

/-- C8 amended: on success the validator returns the parsed instants
unchanged (no truncation to date granularity); the monthly, quarterly and
yearly normalizations depend only on the calendar fields — but (per the
counterexample) the weekly day count uses raw timestamps, so time-of-day
is preserved and can reach the report. -/
theorem validator_preserves_instants (a : ℚ) (s e : JSDate) (x y : Nat)
    (h : ¬ getTime e < getTime s) :
    validateRange (some (some s)) (some (some e)) = .ok (s, e) ∧
    normalizeBudget "monthly" a ⟨s.year, s.month, s.day, x⟩
        ⟨e.year, e.month, e.day, y⟩ = normalizeBudget "monthly" a s e ∧
    normalizeBudget "quarterly" a ⟨s.year, s.month, s.day, x⟩
        ⟨e.year, e.month, e.day, y⟩ = normalizeBudget "quarterly" a s e ∧
    normalizeBudget "yearly" a ⟨s.year, s.month, s.day, x⟩
        ⟨e.year, e.month, e.day, y⟩ = normalizeBudget "yearly" a s e := by
  have dqm : ("quarterly" : String) ≠ "monthly" := by decide
  have dqw : ("quarterly" : String) ≠ "weekly" := by decide
  have dym : ("yearly" : String) ≠ "monthly" := by decide
  have dyw : ("yearly" : String) ≠ "weekly" := by decide
  have dyq : ("yearly" : String) ≠ "quarterly" := by decide
  refine ⟨by simp [validateRange, h], ?_, ?_, ?_⟩ <;>
    simp [normalizeBudget, monthSpan, dqm, dqw, dym, dyw, dyq]

theorem validator_preserves_instants_witness :
    validateRange (some (some jan1)) (some (some jan8noon)) =
      .ok (jan1, jan8noon) ∧
    normalizeBudget "monthly" 7 ⟨jan1.year, jan1.month, jan1.day, 5⟩
        ⟨jan8noon.year, jan8noon.month, jan8noon.day, 6⟩ =
      normalizeBudget "monthly" 7 jan1 jan8noon ∧
    normalizeBudget "quarterly" 7 ⟨jan1.year, jan1.month, jan1.day, 5⟩
        ⟨jan8noon.year, jan8noon.month, jan8noon.day, 6⟩ =
      normalizeBudget "quarterly" 7 jan1 jan8noon ∧
    normalizeBudget "yearly" 7 ⟨jan1.year, jan1.month, jan1.day, 5⟩
        ⟨jan8noon.year, jan8noon.month, jan8noon.day, 6⟩ =
      normalizeBudget "yearly" 7 jan1 jan8noon :=
  validator_preserves_instants 7 jan1 jan8noon 5 6 (by decide)

end ExpenseReports
